import Mathlib

/-!
Verification development for the SCT (Signed Certificate Timestamp) engine of
`src/src/proto1/mod_ssl_ct.c`.  The C source is shallowly embedded: byte
buffers are `List Nat` (each element one octet), `apr_size_t` / `apr_uint16_t`
arithmetic is `Nat` with explicit `% 2^64` / `% 2^16` where the C type wraps,
`apr_time_t` is a signed 64-bit quantity modelled as `Int` via `int64OfNat`,
and fallible C functions return `Option` or a dedicated result type.

External collaborators (OpenSSL EVP signature verification, SHA-256, the
filesystem, the external log-submission command) are modelled as explicit
parameters, so every claim about the module's own control flow is decided by
the embedded code alone.
-/

namespace ModSslCt

/-- Size of a CT log id in bytes (`LOG_ID_SIZE` in the source). -/
def LOG_ID_SIZE : Nat := 32

/-- Limit on the size of a stored SCT file (`MAX_SCTS_SIZE` in the source). -/
def MAX_SCTS_SIZE : Nat := 10000

/-- Big-endian value of a byte string: `ctutil_deserialize_uint16` /
`ctutil_deserialize_uint64` read this way.
Modelled from the spec: the `ctutil_*` helpers live in `ssl_ct_util.c`, which
is not part of the provided sources; the spec fixes big-endian 16/64-bit
fields ("reads timestamp as big-endian 64-bit milliseconds", "16-bit
extension length"). -/
def readBE (l : List Nat) : Nat := l.foldl (fun a b => a * 256 + b) 0

/-- Big-endian serialization of `n` in `k` bytes (`ctutil_serialize_uint16`,
`ctutil_serialize_uint64`, and the length prefixes of
`ctutil_write_var16_bytes` / `ctutil_write_var24_bytes`).
Modelled from the spec: the `ctutil_*` helpers are in `ssl_ct_util.c`
(not under the provided sources); the spec fixes the big-endian
length-prefixed wire format. -/
def beBytes : Nat → Nat → List Nat
  | 0, _ => []
  | k + 1, n => beBytes k (n / 256) ++ [n % 256]

/-- 16-bit big-endian serialization, as written by `ctutil_file_write_uint16`. -/
def be16 (n : Nat) : List Nat := beBytes 2 n

/-- Read `n` bytes of buffer `l` starting at offset `i`; `none` models a read
past the end of the buffer, which in the C code is an out-of-bounds memory
access (undefined behavior), never a typed error. -/
def bytesAt (l : List Nat) (i n : Nat) : Option (List Nat) :=
  if i + n ≤ l.length then some ((l.drop i).take n) else none

/-- Value of a 64-bit two's-complement word holding the natural number `n`
(`apr_time_t` is a signed 64-bit integer). -/
def int64OfNat (n : Nat) : Int :=
  if n % 2 ^ 64 < 2 ^ 63 then ((n % 2 ^ 64 : Nat) : Int)
  else ((n % 2 ^ 64 : Nat) : Int) - 2 ^ 64

/-- `a - b` on `apr_size_t` (unsigned 64-bit): wraps modulo `2^64`. -/
def sub64 (a b : Nat) : Nat := (2 ^ 64 + a - b % 2 ^ 64) % 2 ^ 64

/-- `sct_fields_t` of the source: the parsed fields of one SCT. -/
structure sct_fields_t where
  version : Nat
  logid : List Nat
  timestamp : Nat
  time : Int
  extensions : List Nat
  extlen : Nat
  hash_alg : Nat
  sig_alg : Nat
  siglen : Nat
  sig : List Nat
  signed_data : Option (List Nat)
deriving Repr, DecidableEq

/-- Result of `parse_sct`: `ok` is `APR_SUCCESS` with the filled fields,
`err` is the typed `APR_EINVAL` error return, and `oob` marks a control path
on which the C code reads past the end of the input buffer (undefined
behavior: the pointer/length bookkeeping desynchronized). -/
inductive ParseResult where
  | ok (fields : sct_fields_t)
  | err
  | oob
deriving Repr, DecidableEq

/-- Whether a parse result is a success (`APR_SUCCESS` with filled fields). -/
def ParseResult.isOk : ParseResult → Bool
  | .ok _ => true
  | _ => false

/-- Reconstruction of the signed input done inside `parse_sct` when a
certificate chain is available: `{version 0, CERTIFICATE_TIMESTAMP 0,
timestamp, X509_ENTRY 0, 24-bit-length-prefixed DER certificate,
16-bit-length-prefixed extensions}` serialized into a 1000000-byte scratch
buffer.  `none` models the serialization failing (`rv != APR_SUCCESS`:
certificate too large for a 24-bit length or for the scratch buffer). -/
def build_signed_input (timestamp : Nat) (exts : List Nat) (der : List Nat) :
    Option (List Nat) :=
  if 2 ^ 24 ≤ der.length then none
  else if 1000000 < 17 + der.length + exts.length then none
  else some ([0, 0] ++ beBytes 8 timestamp ++ [0, 0] ++
             beBytes 3 der.length ++ der ++ be16 exts.length ++ exts)

/-- Tail of `parse_sct` after the extensions: hash algorithm byte, signature
algorithm byte, 16-bit signature length, signature bytes, and (when a
certificate is supplied) the signed-input reconstruction.  `cur` is the
current read offset into `sct` and `len` the C code's running byte counter
(which may have wrapped below zero on `apr_size_t`). -/
def parse_sct_tail (sct : List Nat) (cert : Option (List Nat)) (version : Nat)
    (logid : List Nat) (timestamp : Nat) (time : Int) (extlen : Nat)
    (exts : List Nat) (cur len : Nat) : ParseResult :=
  if len < 4 then .err
  else
    match bytesAt sct cur 4 with
    | none => .oob
    | some hdr4 =>
      let hash_alg := readBE (hdr4.take 1)
      let sig_alg := readBE ((hdr4.drop 1).take 1)
      let siglen := readBE (hdr4.drop 2)
      let len4 := len - 4
      if siglen < len4 then .err
      else
        match bytesAt sct (cur + 4) siglen with
        | none => .oob
        | some sg =>
          match cert with
          | none =>
            .ok ⟨version, logid, timestamp, time, exts, extlen,
                 hash_alg, sig_alg, siglen, sg, none⟩
          | some der =>
            match build_signed_input timestamp exts der with
            | none => .err
            | some sd =>
              .ok ⟨version, logid, timestamp, time, exts, extlen,
                   hash_alg, sig_alg, siglen, sg, some sd⟩

/-- `parse_sct` of the source (the `cert_chain` argument reduced to the DER
bytes of the leaf certificate, the only thing it is used for).  Mirrors the
source's checks in order: fixed-header length check, 16-bit extension length
with the source's `extlen < len` comparison, then `parse_sct_tail`. -/
def parse_sct (sct : List Nat) (cert : Option (List Nat)) : ParseResult :=
  if sct.length < 1 + LOG_ID_SIZE + 8 then .err
  else
    let version := sct.headD 0
    let logid := (sct.drop 1).take LOG_ID_SIZE
    let timestamp := readBE ((sct.drop 33).take 8)
    let time := int64OfNat (timestamp * 1000)
    let len1 := sct.length - 41
    if len1 < 2 then .err
    else
      let extlen := readBE ((sct.drop 41).take 2)
      let len2 := len1 - 2
      if extlen ≠ 0 then
        if extlen < len2 then .err
        else
          parse_sct_tail sct cert version logid timestamp time extlen
            ((sct.drop 43).take extlen) (43 + extlen) (sub64 len2 extlen)
      else
        parse_sct_tail sct cert version logid timestamp time 0 [] 43 len2

/-- `ctutil_read_var_bytes`: read a big-endian 16-bit length then that many
bytes; on success return the bytes and the rest of the buffer, `none` when
fewer than 2 bytes remain or the declared length exceeds what remains.
Modelled from the spec: the helper is in `ssl_ct_util.c` (not under the
provided sources); the spec fixes the wire format as
`u16 total_length_of_remainder` / `(u16 length, length bytes)` entries. -/
def read_var_bytes (b : List Nat) : Option (List Nat × List Nat) :=
  if b.length < 2 then none
  else
    let n := readBE (b.take 2)
    if b.length - 2 < n then none
    else some ((b.drop 2).take n, (b.drop 2).drop n)

/-- The entry-reading loop of `deserialize_SCTs`, bounded by an explicit
fuel (each loop iteration consumes at least two bytes, so the buffer length
is always enough fuel): read `(u16 length, bytes)` entries while bytes
remain.  When an entry read fails the C loop exits with
`rv != APR_SUCCESS` but the function then returns `APR_SUCCESS` with the
entries pushed so far, so a failed entry read just truncates the result. -/
def readEntriesF : Nat → List Nat → List (List Nat)
  | 0, _ => []
  | fuel + 1, b =>
    if b.length < 2 then []
    else
      let n := readBE (b.take 2)
      if b.length - 2 < n then []
      else ((b.drop 2).take n) :: readEntriesF fuel ((b.drop 2).drop n)

/-- The entry-reading loop of `deserialize_SCTs` on a whole buffer. -/
def readEntries (b : List Nat) : List (List Nat) := readEntriesF b.length b

/-- `deserialize_SCTs`: check that the leading 16-bit length plus its own two
bytes exactly covers the input, then read the `(u16 length, bytes)` entries.
`none` is the function's `APR_EINVAL` error return. -/
def deserialize_SCTs (b : List Nat) : Option (List (List Nat)) :=
  match read_var_bytes b with
  | none => none
  | some (d, _) =>
    if d.length + 2 = b.length then some (readEntries (b.drop 2)) else none

/-- One framed entry as `collate_scts` writes it:
`ctutil_file_write_uint16(s, tmpfile, (apr_uint16_t)scts_size)` truncates the
size to 16 bits, then the raw bytes follow. -/
def frame_entry (x : List Nat) : List Nat := be16 (x.length % 2 ^ 16) ++ x

/-- The framed blob `collate_scts` produces for the entries it writes: the
16-bit `overall_len` header, accumulated as `overall_len += scts_size + 2` in
an `apr_uint16_t` (hence modulo `2^16`), followed by the framed entries. -/
def write_framed (xs : List (List Nat)) : List Nat :=
  be16 ((xs.map (fun x => x.length + 2)).sum % 2 ^ 16) ++
    (xs.map frame_entry).flatten

/-- Servability predicate of the collation loop: a `.sct` file is written to
the collated blob exactly when it parses (with no certificate available,
`parse_sct(..., NULL, ...)`) and its timestamp is not in the future
(`fields.time > apr_time_now()` skips the file). -/
def servable (now : Int) (f : List Nat) : Bool :=
  match parse_sct f none with
  | .ok flds => flds.time ≤ now
  | _ => false

/-- The per-file loop of `collate_scts`: read each file (at most
`MAX_SCTS_SIZE` bytes — `ctutil_read_file` fails on larger files, modelled
from the spec since `ssl_ct_util.c` is not under the provided sources), parse
it, skip files whose timestamp is in the future, and collect the rest in
order.  `none` models `rv != APR_SUCCESS` breaking out of the loop: a read or
parse failure aborts the whole collation pass. -/
def collate_loop (now : Int) : List (List Nat) → Option (List (List Nat))
  | [] => some []
  | f :: rest =>
    if MAX_SCTS_SIZE < f.length then none
    else
      match parse_sct f none with
      | .ok flds =>
        if flds.time > now then collate_loop now rest
        else (collate_loop now rest).map (f :: ·)
      | _ => none

/-- Result of one `collate_scts` pass: whether it returned `APR_SUCCESS`, the
SCTs written to the temporary file (in directory order), whether the collated
file was replaced (`apr_file_remove` + `apr_file_rename`), and the resulting
content of the collated file. -/
structure CollateResult where
  ok : Bool
  written : List (List Nat)
  replaced : Bool
  blob : Option (List Nat)
deriving Repr, DecidableEq

/-- `collate_scts` over the `.sct` files of one certificate directory
(`files`, in the order `ctutil_read_dir` lists them), the current time, and
the previous content of the collated file.  The temporary file is rebuilt
unconditionally, but it replaces the collated file only when
`rv == APR_SUCCESS && scts_written` — with zero SCTs written (or any
read/parse failure) the previous collated file is left in place. -/
def collate_scts (files : List (List Nat)) (now : Int)
    (prev : Option (List Nat)) : CollateResult :=
  match collate_loop now files with
  | none => ⟨false, [], false, prev⟩
  | some written =>
    if written.isEmpty then ⟨true, written, false, prev⟩
    else ⟨true, written, true, some (write_framed written)⟩

/-- Log trust registry lookup inside `try_verify_signature`: scan the
configured `(log id, public key)` pairs and return the key of the first
entry whose 32-byte id equals the SCT's log id (`memcmp` match); `none` is
the `APR_NOTFOUND` (unknown log) outcome.  Public keys are opaque handles
(`EVP_PKEY *`), modelled as `Nat`. -/
def find_log_key : List (List Nat × Nat) → List Nat → Option Nat
  | [], _ => none
  | (lid, k) :: rest, logid => if lid = logid then some k else find_log_key rest logid

/-- `verify_signature`: fails (`APR_EINVAL`) when no signed data was
reconstructed, otherwise defers to OpenSSL's `EVP_VerifyFinal`, modelled as
the abstract parameter `evp` applied to the signed data, the signature bytes
and the public-key handle. -/
def verify_signature (evp : List Nat → List Nat → Nat → Bool)
    (flds : sct_fields_t) (key : Nat) : Bool :=
  match flds.signed_data with
  | none => false
  | some sd => evp sd flds.sig key

/-- Running tallies of the validation loop in `validate_server_data`:
`parse_failed` records that some `parse_sct` call failed (the loop sets
`rv = tmprv` and `rv` is never reset to `APR_SUCCESS`), and `verifications`
counts the signature verifications actually performed (calls reaching
`verify_signature`). -/
structure TallyAcc where
  parse_failed : Bool
  successes : Nat
  failures : Nat
  unknowns : Nat
  verifications : Nat
deriving Repr, DecidableEq

/-- Tally update for one successfully parsed SCT (the body of the
`validate_server_data` loop after `parse_sct` succeeded): count a failure
for a future timestamp, then — when log public keys are configured — look
the log up and verify the signature (success / failure / unknown log), else
count the SCT as from an unknown log. -/
def tally_step (evp : List Nat → List Nat → Nat → Bool)
    (logs : Option (List (List Nat × Nat))) (now : Int) (acc : TallyAcc)
    (flds : sct_fields_t) : TallyAcc :=
  let acc1 := if flds.time > now then
                { acc with failures := acc.failures + 1 }
              else acc
  match logs with
  | some ls =>
    match find_log_key ls flds.logid with
    | some key =>
      if verify_signature evp flds key then
        { acc1 with successes := acc1.successes + 1,
                    verifications := acc1.verifications + 1 }
      else
        { acc1 with failures := acc1.failures + 1,
                    verifications := acc1.verifications + 1 }
    | none => { acc1 with unknowns := acc1.unknowns + 1 }
  | none => { acc1 with unknowns := acc1.unknowns + 1 }

/-- The per-SCT loop of `validate_server_data` (source lines 1570-1614):
parse each SCT with the server certificate; a parse failure sets
`rv = tmprv` (recorded in `parse_failed`, never reset), a parse success
updates the tallies via `tally_step`.  `none` marks a loop iteration on
which `parse_sct` read out of bounds (undefined behavior). -/
def tally_loop (evp : List Nat → List Nat → Nat → Bool)
    (logs : Option (List (List Nat × Nat))) (der : List Nat) (now : Int)
    (acc : TallyAcc) : List (List Nat) → Option TallyAcc
  | [] => some acc
  | sct :: rest =>
    match parse_sct sct (some der) with
    | .oob => none
    | .err => tally_loop evp logs der now { acc with parse_failed := true } rest
    | .ok flds => tally_loop evp logs der now (tally_step evp logs now acc flds) rest

/-- Outcome of `validate_server_data`: `ok` is the final
`rv == APR_SUCCESS`, plus the three tallies and the number of signature
verifications performed. -/
structure ValidateOutcome where
  ok : Bool
  successes : Nat
  failures : Nat
  unknowns : Nat
  verifications : Nat
deriving Repr, DecidableEq

/-- The validation stage of `validate_server_data` on the deserialized SCT
list (source lines 1553-1628): zero SCTs is the "SNAFU" internal-consistency
`APR_EINVAL`; otherwise run the tally loop and apply the final policy — the
verdict is a failure exactly when some SCT failed to parse or there was at
least one verification failure and zero successes. -/
def validate_scts (evp : List Nat → List Nat → Nat → Bool)
    (logs : Option (List (List Nat × Nat))) (der : List Nat) (now : Int)
    (scts : List (List Nat)) : Option ValidateOutcome :=
  if scts.isEmpty then some ⟨false, 0, 0, 0, 0⟩
  else
    match tally_loop evp logs der now ⟨false, 0, 0, 0, 0⟩ scts with
    | none => none
    | some acc =>
      some ⟨!acc.parse_failed && !(decide (0 < acc.failures) && decide (acc.successes = 0)),
            acc.successes, acc.failures, acc.unknowns, acc.verifications⟩

/-- `ct_conn_config`, reduced to the per-channel raw SCT-list byte blobs the
proxy-side validation consumes (`NULL` pointer = `none`). -/
structure ct_conn_config where
  cert_sct_list : Option (List Nat)
  serverhello_sct_list : Option (List Nat)
  ocsp_sct_list : Option (List Nat)
deriving Repr, DecidableEq

/-- Channel deserialization step of `validate_server_data`: each present
channel is deserialized only while `rv == APR_SUCCESS`, appending its SCTs to
`all_scts`; a deserialization failure makes the whole validation fail. -/
def deserialize_channel (acc : Bool × List (List Nat)) (ch : Option (List Nat)) :
    Bool × List (List Nat) :=
  match ch with
  | none => acc
  | some b =>
    if acc.1 then
      match deserialize_SCTs b with
      | some es => (true, acc.2 ++ es)
      | none => (false, acc.2)
    else acc

/-- `validate_server_data`: deserialize the three channels in source order
(certificate extension, ServerHello extension, stapled OCSP response), then
validate the combined SCT list. -/
def validate_server_data (evp : List Nat → List Nat → Nat → Bool)
    (logs : Option (List (List Nat × Nat))) (der : List Nat) (now : Int)
    (conncfg : ct_conn_config) : Option ValidateOutcome :=
  let st := deserialize_channel
              (deserialize_channel
                (deserialize_channel (true, []) conncfg.cert_sct_list)
                conncfg.serverhello_sct_list)
              conncfg.ocsp_sct_list
  if st.1 then validate_scts evp logs der now st.2
  else some ⟨false, 0, 0, 0, 0⟩

/-- `gen_key`: the validation-cache key is the SHA-256 hash of the leaf
certificate's fingerprint followed by whichever of the three raw channel
byte blobs are present, in source order.  SHA-256 is external (OpenSSL); the
key is modelled by the exact byte string fed to the hash (equal inputs give
equal hashes, which is all the cache-hit behavior depends on).  The
fingerprint is itself a digest of the leaf certificate, modelled as an
abstract byte string parameter. -/
def gen_key (fp : List Nat) (conncfg : ct_conn_config) : List Nat :=
  fp ++ (conncfg.cert_sct_list.getD []) ++ (conncfg.serverhello_sct_list.getD [])
     ++ (conncfg.ocsp_sct_list.getD [])

/-- The process-wide validation cache `cached_server_data`: a map from key to
the stored `validation_result` (`apr_status_t`, modelled as the `Bool`
"was `APR_SUCCESS`"), as an association list in insertion order. -/
def Cache := List (List Nat × Bool)

/-- Lookup in the validation cache (`apr_hash_get`). -/
def cache_get : List (List Nat × Bool) → List Nat → Option Bool
  | [], _ => none
  | (k, v) :: rest, key => if k = key then some v else cache_get rest key

/-- `proxy_awareness` value `PROXY_OBLIVIOUS`. -/
def PROXY_OBLIVIOUS : Nat := 1
/-- `proxy_awareness` value `PROXY_REQUIRE`. -/
def PROXY_REQUIRE : Nat := 3
/-- httpd `OK` return value of the post-handshake hook. -/
def HOOK_OK : Nat := 0
/-- httpd `HTTP_FORBIDDEN` return value of the post-handshake hook. -/
def HTTP_FORBIDDEN : Nat := 403

/-- Observable outcome of one `ssl_ct_ssl_proxy_post_handshake` call:
the hook's return value, the final `rv` (`APR_SUCCESS` = `true`), whether the
cache lookup hit, and how many signature verifications were performed. -/
structure PostHandshakeResult where
  status : Nat
  verdict : Bool
  hit : Bool
  verifications : Nat
deriving Repr, DecidableEq

/-- `ssl_ct_ssl_proxy_post_handshake` (source lines 1935-2052): skip
everything under `PROXY_OBLIVIOUS`; with no channel data flag
`missing-SCT`; otherwise compute the cache key — on a hit reuse the stored
verdict with no re-validation, on a miss run `validate_server_data`, store
its result under the key (sequential execution, so the double-checked insert
always finds the key absent and inserts), and report it.  Under
`PROXY_REQUIRE` a missing-SCT or validation error turns into
`HTTP_FORBIDDEN`.  `none` propagates an out-of-bounds read inside
validation (undefined behavior). -/
def ssl_ct_ssl_proxy_post_handshake (evp : List Nat → List Nat → Nat → Bool)
    (logs : Option (List (List Nat × Nat))) (der : List Nat) (now : Int)
    (proxy_awareness : Nat) (fp : List Nat) (cache : List (List Nat × Bool))
    (conncfg : ct_conn_config) :
    Option (PostHandshakeResult × List (List Nat × Bool)) :=
  if proxy_awareness = PROXY_OBLIVIOUS then
    some (⟨HOOK_OK, true, false, 0⟩, cache)
  else if conncfg.cert_sct_list = none ∧ conncfg.serverhello_sct_list = none
          ∧ conncfg.ocsp_sct_list = none then
    -- missing_sct_error: rv stays APR_SUCCESS but PROXY_REQUIRE forbids
    some (⟨if proxy_awareness = PROXY_REQUIRE then HTTP_FORBIDDEN else HOOK_OK,
           true, false, 0⟩, cache)
  else
    match cache_get cache (gen_key fp conncfg) with
    | some v =>
      some (⟨if proxy_awareness = PROXY_REQUIRE ∧ v = false then HTTP_FORBIDDEN
             else HOOK_OK, v, true, 0⟩, cache)
    | none =>
      match validate_server_data evp logs der now conncfg with
      | none => none
      | some out =>
        some (⟨if proxy_awareness = PROXY_REQUIRE ∧ out.ok = false then
                 HTTP_FORBIDDEN else HOOK_OK,
               out.ok, false, out.verifications⟩,
              (gen_key fp conncfg, out.ok) :: cache)

/-- The certificate loop of `refresh_all_scts` (source lines 1104-1145),
flattening the walk over `server_rec`s and their `cert_sct_dirs` into one
list of certificate directories.  `outcome` abstracts
`refresh_scts_for_cert` (whose result depends on the filesystem and the
external fetch command): `true` means `APR_SUCCESS`.  Directories already in
`already_processed` are skipped; on the first failure the function returns
immediately (`return rv`), so no later directory is processed.  Returns the
final success flag and the list of directories actually processed. -/
def refresh_all_scts (outcome : Nat → Bool) :
    List Nat → List Nat → Bool × List Nat
  | [], processed => (true, processed)
  | d :: rest, processed =>
    if d ∈ processed then refresh_all_scts outcome rest processed
    else if outcome d then refresh_all_scts outcome rest (processed ++ [d])
    else (false, processed ++ [d])

/-! Concrete byte vectors used to instantiate the theorems below. -/

/-- A minimal well-formed 47-byte SCT: version 0, all-zero log id, timestamp
0, no extensions, zero-length signature. -/
def minSct : List Nat :=
  [0] ++ List.replicate 32 0 ++ List.replicate 8 0 ++ [0, 0] ++ [0, 0] ++ [0, 0]

/-- A minimal well-formed SCT with millisecond timestamp `t`. -/
def sctWithTs (t : Nat) : List Nat :=
  [0] ++ List.replicate 32 0 ++ beBytes 8 t ++ [0, 0] ++ [0, 0] ++ [0, 0]

/-- 43-byte SCT whose declared 16-bit extension length (0xFFFF) exceeds the
0 bytes remaining after the extension-length field. -/
def extOverrunSct : List Nat :=
  [0] ++ List.replicate 32 0 ++ List.replicate 8 0 ++ [255, 255]

/-- 47-byte SCT whose declared 16-bit signature length (5) exceeds the
0 bytes remaining after the signature-length field. -/
def sigOverrunSct : List Nat :=
  [0] ++ List.replicate 32 0 ++ List.replicate 8 0 ++ [0, 0] ++ [0, 0] ++ [0, 5]

/-- A single-byte buffer: malformed SCT (truncated fixed header). -/
def badSct : List Nat := [0]

/-- A registry with one log: the all-zero 32-byte log id, public-key
handle 0. -/
def oneLog : List (List Nat × Nat) := [(List.replicate 32 0, 0)]

/-- A signature-verification oracle that accepts everything (concrete
instantiation of the abstract EVP parameter). -/
def evpAcceptAll : List Nat → List Nat → Nat → Bool := fun _ _ _ => true

/-- A framed single-SCT list blob, as a channel would deliver it. -/
def oneSctBlob : List Nat := write_framed [minSct]

/-- Connection data carrying `oneSctBlob` on all three channels. -/
def threeChannelConn : ct_conn_config :=
  ⟨some oneSctBlob, some oneSctBlob, some oneSctBlob⟩

/-- The parsed fields of `sctWithTs 1` against leaf certificate DER `[1]`. -/
def fldsTs1 : sct_fields_t :=
  ⟨0, List.replicate 32 0, 1, 1000, [], 0, 0, 0, 0, [],
   some ([0, 0] ++ beBytes 8 1 ++ [0, 0] ++ [0, 0, 1] ++ [1] ++ [0, 0])⟩

/-- Cache content after the first `ssl_ct_ssl_proxy_post_handshake` call of
the C8 witness scenario: the key for fingerprint `[3, 3]` with `oneSctBlob`
on all three channels, mapped to a successful verdict. -/
def c8Cache1 : List (List Nat × Bool) :=
  [([3, 3] ++ oneSctBlob ++ oneSctBlob ++ oneSctBlob, true)]

/-! Helper lemmas. -/

theorem readBE_append (l₁ l₂ : List Nat) :
    readBE (l₁ ++ l₂) = l₂.foldl (fun a b => a * 256 + b) (readBE l₁) := by
  simp [readBE, List.foldl_append]

theorem beBytes_length (k n : Nat) : (beBytes k n).length = k := by
  induction k generalizing n with
  | zero => rfl
  | succ k ih => simp [beBytes, ih]

theorem readBE_beBytes (k n : Nat) (h : n < 256 ^ k) : readBE (beBytes k n) = n := by
  induction k generalizing n with
  | zero =>
    interval_cases n
    rfl
  | succ k ih =>
    have hlt : n / 256 < 256 ^ k := by
      rw [Nat.div_lt_iff_lt_mul (by norm_num)]
      calc n < 256 ^ (k + 1) := h
        _ = 256 ^ k * 256 := by ring
    rw [beBytes, readBE_append, ih _ hlt]
    simp only [List.foldl_cons, List.foldl_nil]
    omega

theorem be16_length (n : Nat) : (be16 n).length = 2 := beBytes_length 2 n

/-- C1: the spec claims every malformed SCT (truncated header, extension
length overrun, signature length overrun, trailing bytes) gets a typed
error from `parse_sct`.  The code's checks `extlen < len` and `siglen < len`
are reversed relative to their own "no space for ..." error messages: on the
two overrun shapes parsing continues past the end of the buffer
(`ParseResult.oob`, an out-of-bounds read yielding garbage fields in C),
never returning the typed error. -/
theorem parse_sct_overrun_not_typed_error :
    parse_sct extOverrunSct none = ParseResult.oob ∧
    parse_sct sigOverrunSct none = ParseResult.oob ∧
    parse_sct extOverrunSct none ≠ ParseResult.err ∧
    parse_sct sigOverrunSct none ≠ ParseResult.err := by
  decide

theorem two_pow_16 : (2 : Nat) ^ 16 = 65536 := by norm_num

theorem readBE_be16 (n : Nat) (h : n < 2 ^ 16) : readBE (be16 n) = n := by
  rw [be16]
  exact readBE_beBytes 2 n (by norm_num at h ⊢; omega)

theorem frame_entry_length (x : List Nat) : (frame_entry x).length = 2 + x.length := by
  simp [frame_entry, be16_length]

theorem flatten_frames_length (xs : List (List Nat)) :
    ((xs.map frame_entry).flatten).length = (xs.map (fun x => x.length + 2)).sum := by
  induction xs with
  | nil => rfl
  | cons x xs ih =>
    simp only [List.map_cons, List.flatten_cons, List.length_append, ih,
      List.sum_cons, frame_entry_length]
    omega

theorem readEntriesF_frames (xs : List (List Nat)) (fuel : Nat)
    (hf : ((xs.map frame_entry).flatten).length ≤ fuel)
    (h : ∀ x ∈ xs, x.length < 2 ^ 16) :
    readEntriesF fuel ((xs.map frame_entry).flatten) = xs := by
  induction xs generalizing fuel with
  | nil =>
    cases fuel with
    | zero => rfl
    | succ f => simp [readEntriesF]
  | cons x xs ih =>
    have hx : x.length < 2 ^ 16 := h x (List.mem_cons_self x xs)
    have hassoc : frame_entry x ++ (xs.map frame_entry).flatten
        = be16 x.length ++ (x ++ (xs.map frame_entry).flatten) := by
      rw [frame_entry, Nat.mod_eq_of_lt hx, List.append_assoc]
    have hlen : (frame_entry x ++ (xs.map frame_entry).flatten).length
        = 2 + (x.length + ((xs.map frame_entry).flatten).length) := by
      rw [hassoc]
      simp [be16_length]
    have htake : (frame_entry x ++ (xs.map frame_entry).flatten).take 2
        = be16 x.length := by
      rw [hassoc, List.take_left' (be16_length x.length)]
    have hdrop : (frame_entry x ++ (xs.map frame_entry).flatten).drop 2
        = x ++ (xs.map frame_entry).flatten := by
      rw [hassoc, List.drop_left' (be16_length x.length)]
    have hread : readBE ((frame_entry x ++ (xs.map frame_entry).flatten).take 2)
        = x.length := by
      rw [htake]
      exact readBE_beBytes 2 x.length (by norm_num at hx ⊢; omega)
    rw [List.map_cons, List.flatten_cons] at hf ⊢
    cases fuel with
    | zero =>
      rw [hlen] at hf
      omega
    | succ f =>
      rw [readEntriesF]
      rw [if_neg (by omega)]
      simp only [hread, hdrop, hlen]
      rw [if_neg (by omega)]
      rw [List.take_left, List.drop_left]
      refine congrArg (x :: ·) (ih f ?_ (fun y hy => h y (List.mem_cons_of_mem x hy)))
      rw [hlen] at hf
      omega

theorem readEntries_frames (xs : List (List Nat))
    (h : ∀ x ∈ xs, x.length < 2 ^ 16) :
    readEntries ((xs.map frame_entry).flatten) = xs :=
  readEntriesF_frames xs _ (Nat.le_refl _) h

theorem read_var_bytes_be16 (n : Nat) (t : List Nat) (hn : n < 2 ^ 16)
    (hle : n ≤ t.length) :
    read_var_bytes (be16 n ++ t) = some (t.take n, t.drop n) := by
  have hlen : (be16 n ++ t).length = 2 + t.length := by
    simp [be16_length]
  have htake : (be16 n ++ t).take 2 = be16 n := List.take_left' (be16_length n)
  have hdrop : (be16 n ++ t).drop 2 = t := List.drop_left' (be16_length n)
  have hread : readBE ((be16 n ++ t).take 2) = n := by
    rw [htake]
    exact readBE_beBytes 2 n (by norm_num at hn ⊢; omega)
  rw [read_var_bytes, if_neg (by omega)]
  simp only [hread, hdrop, hlen]
  rw [if_neg (by omega)]

/-- C4 (amended): the framed-record round-trip law holds for every sequence
of byte strings each at most 65535 bytes long whose total framed size
`sum (length + 2)` also fits in 16 bits: writing them as `collate_scts` does
(16-bit total length, then a 16-bit length prefix before each entry) and
reading the result back with `deserialize_SCTs` yields exactly the original
sequence.  (The extra bound is forced: the 16-bit total-length header wraps
otherwise, see the counterexample.) -/
theorem framed_roundtrip (xs : List (List Nat))
    (h1 : ∀ x ∈ xs, x.length ≤ 65535)
    (h2 : (xs.map (fun x => x.length + 2)).sum ≤ 65535) :
    deserialize_SCTs (write_framed xs) = some xs := by
  have htot : (xs.map (fun x => x.length + 2)).sum % 2 ^ 16
      = (xs.map (fun x => x.length + 2)).sum := Nat.mod_eq_of_lt (by rw [two_pow_16]; omega)
  have hbody : ((xs.map frame_entry).flatten).length
      = (xs.map (fun x => x.length + 2)).sum := flatten_frames_length xs
  have hrv : read_var_bytes (write_framed xs)
      = some ((xs.map frame_entry).flatten, []) := by
    rw [write_framed, htot,
        read_var_bytes_be16 _ _ (by rw [two_pow_16]; omega) (le_of_eq hbody.symm),
        ← hbody, List.take_length, List.drop_length]
  have hlen : (write_framed xs).length
      = 2 + (xs.map (fun x => x.length + 2)).sum := by
    rw [write_framed]
    simp [be16_length, hbody]
  have hdrop : (write_framed xs).drop 2 = (xs.map frame_entry).flatten := by
    rw [write_framed, htot, List.drop_left' (be16_length _)]
  rw [deserialize_SCTs, hrv]
  simp only
  rw [if_pos (by omega), hdrop]
  exact congrArg some (readEntries_frames xs (fun x hx => by
    have := h1 x hx
    norm_num
    omega))

/-- C4 counterexample: the claim as stated, for every sequence with entries
each at most 65535 bytes, fails.  32768 empty entries have total framed size
65536, the 16-bit header wraps to 0, and `deserialize_SCTs` rejects the blob
`collate_scts`-style writing produced instead of returning the sequence. -/
theorem framed_roundtrip_cex :
    (∀ x ∈ List.replicate 32768 ([] : List Nat), x.length ≤ 65535) ∧
    deserialize_SCTs (write_framed (List.replicate 32768 ([] : List Nat))) = none := by
  constructor
  · intro x hx
    rw [List.eq_of_mem_replicate hx]
    simp
  · have hsum : ((List.replicate 32768 ([] : List Nat)).map (fun x => x.length + 2)).sum
        = 65536 := by
      rw [List.map_replicate, List.sum_replicate]
      norm_num
    have hblen : (((List.replicate 32768 ([] : List Nat)).map frame_entry).flatten).length
        = 65536 := by
      rw [List.map_replicate, List.length_flatten, List.map_replicate,
          List.sum_replicate]
      norm_num [frame_entry_length]
    have hlen : (write_framed (List.replicate 32768 ([] : List Nat))).length = 65538 := by
      rw [write_framed, List.length_append, be16_length, hblen]
    have hrv : read_var_bytes (write_framed (List.replicate 32768 ([] : List Nat)))
        = some ([], ((List.replicate 32768 ([] : List Nat)).map frame_entry).flatten) := by
      rw [write_framed, hsum]
      norm_num
      rw [read_var_bytes_be16 0 _ (by norm_num) (Nat.zero_le _), List.take_zero,
          List.drop_zero]
    rw [deserialize_SCTs, hrv]
    simp only
    rw [if_neg (by simp only [List.length_nil, hlen]; omega)]

/-- Witness for the amended round-trip law at a concrete two-entry sequence. -/
theorem framed_roundtrip_witness :
    (∀ x ∈ ([[7, 8], [9]] : List (List Nat)), x.length ≤ 65535) ∧
    (([[7, 8], [9]] : List (List Nat)).map (fun x => x.length + 2)).sum ≤ 65535 ∧
    deserialize_SCTs (write_framed [[7, 8], [9]]) = some [[7, 8], [9]] :=
  ⟨by decide, by decide, framed_roundtrip [[7, 8], [9]] (by decide) (by decide)⟩

theorem tally_step_parse_failed (evp : List Nat → List Nat → Nat → Bool)
    (logs : Option (List (List Nat × Nat))) (now : Int) (acc : TallyAcc)
    (flds : sct_fields_t) :
    (tally_step evp logs now acc flds).parse_failed = acc.parse_failed := by
  cases logs with
  | none =>
    by_cases hf : flds.time > now <;> simp [tally_step, hf]
  | some ls =>
    cases hk : find_log_key ls flds.logid with
    | none => by_cases hf : flds.time > now <;> simp [tally_step, hk, hf]
    | some key =>
      by_cases hv : verify_signature evp flds key <;>
        by_cases hf : flds.time > now <;> simp [tally_step, hk, hf, hv]

theorem tally_loop_total (evp : List Nat → List Nat → Nat → Bool)
    (logs : Option (List (List Nat × Nat))) (der : List Nat) (now : Int)
    (scts : List (List Nat)) (acc : TallyAcc)
    (h : ∀ s ∈ scts, parse_sct s (some der) ≠ .oob) :
    ∃ acc', tally_loop evp logs der now acc scts = some acc' ∧
      acc'.parse_failed
        = (acc.parse_failed
            || scts.any (fun s => !(parse_sct s (some der)).isOk)) := by
  induction scts generalizing acc with
  | nil => exact ⟨acc, rfl, by simp⟩
  | cons s rest ih =>
    have hrest : ∀ x ∈ rest, parse_sct x (some der) ≠ .oob :=
      fun x hx => h x (List.mem_cons_of_mem s hx)
    cases hc : parse_sct s (some der) with
    | oob => exact absurd hc (h s (List.mem_cons_self s rest))
    | err =>
      obtain ⟨acc', h1, h2⟩ := ih { acc with parse_failed := true } hrest
      refine ⟨acc', ?_, ?_⟩
      · rw [tally_loop, hc]
        exact h1
      · rw [h2]
        simp [hc, ParseResult.isOk]
    | ok flds =>
      obtain ⟨acc', h1, h2⟩ := ih (tally_step evp logs now acc flds) hrest
      refine ⟨acc', ?_, ?_⟩
      · rw [tally_loop, hc]
        exact h1
      · rw [h2, tally_step_parse_failed]
        simp [hc, ParseResult.isOk]

/-- C2 counterexample: the claim's third clause says that when every SCT is
from an unknown log the connection verdict is success.  One SCT from an
unknown log (registry configured, no id match) with a future timestamp makes
every SCT unknown-log (`unknowns = 1` of 1) yet the verdict is failure,
because the future timestamp is also tallied as a verification failure and
there are zero successes. -/
theorem validate_policy_cex :
    validate_scts evpAcceptAll (some []) [1] 0 [sctWithTs 1]
      = some ⟨false, 0, 1, 1, 0⟩ := by
  decide

/-- C2 (amended): for SCT lists in which every SCT parses, the verdict of
`validate_scts` follows the source policy: at least one verification success
passes the connection regardless of other failures or unknown logs; at least
one failure with zero successes fails it; and when every SCT is from an
unknown log and none contributed a verification failure (no future
timestamps) the connection is provisionally accepted. -/
theorem validate_policy (evp : List Nat → List Nat → Nat → Bool)
    (logs : Option (List (List Nat × Nat))) (der : List Nat) (now : Int)
    (scts : List (List Nat)) (hne : scts ≠ [])
    (hp : ∀ s ∈ scts, (parse_sct s (some der)).isOk = true) :
    ∃ out, validate_scts evp logs der now scts = some out ∧
      (0 < out.successes → out.ok = true) ∧
      (0 < out.failures ∧ out.successes = 0 → out.ok = false) ∧
      (out.unknowns = scts.length ∧ out.failures = 0 → out.ok = true) := by
  have hoob : ∀ s ∈ scts, parse_sct s (some der) ≠ .oob := by
    intro s hs hc
    have := hp s hs
    rw [hc] at this
    simp [ParseResult.isOk] at this
  obtain ⟨acc, h1, h2⟩ :=
    tally_loop_total evp logs der now scts ⟨false, 0, 0, 0, 0⟩ hoob
  have hany : scts.any (fun s => !(parse_sct s (some der)).isOk) = false := by
    rw [List.any_eq_false]
    intro s hs
    rw [hp s hs]
    simp
  have hpf : acc.parse_failed = false := by
    rw [h2, hany]
    rfl
  refine ⟨⟨!acc.parse_failed
            && !(decide (0 < acc.failures) && decide (acc.successes = 0)),
          acc.successes, acc.failures, acc.unknowns, acc.verifications⟩, ?_, ?_, ?_, ?_⟩
  · rw [validate_scts, if_neg (by simp [List.isEmpty_iff, hne]), h1]
  · intro hsucc
    dsimp only at hsucc ⊢
    have h0 : acc.successes ≠ 0 := by omega
    simp [hpf, h0]
  · rintro ⟨hf, hs⟩
    dsimp only at hf hs ⊢
    simp [hpf, hf, hs]
  · rintro ⟨-, hf⟩
    dsimp only at hf ⊢
    simp [hpf, hf]

/-- Witness for the amended validation policy at a concrete input: one
well-formed SCT with no registry configured (unknown log, no failures)
is provisionally accepted. -/
theorem validate_policy_witness :
    (minSct :: [] ≠ []) ∧
    (∀ s ∈ (minSct :: []), (parse_sct s (some [1])).isOk = true) ∧
    (∃ out, validate_scts evpAcceptAll none [1] 5 (minSct :: []) = some out ∧
      (0 < out.successes → out.ok = true) ∧
      (0 < out.failures ∧ out.successes = 0 → out.ok = false) ∧
      (out.unknowns = (minSct :: []).length ∧ out.failures = 0 → out.ok = true)) :=
  ⟨by decide, by decide,
   validate_policy evpAcceptAll none [1] 5 (minSct :: []) (by decide) (by decide)⟩

/-- C3 counterexample: a connection carrying one malformed SCT (truncated,
parse error) and one SCT that verifies successfully against the registered
log still gets a failure verdict — `rv` is set by the parse failure and never
reset, so the malformed SCT rejects the whole connection, not just itself. -/
theorem parse_error_fails_connection_cex :
    validate_scts evpAcceptAll (some oneLog) [1] 5 [badSct, minSct]
      = some ⟨false, 1, 0, 0, 1⟩ := by
  decide

/-- C3 (amended): a parse error on any single SCT forces the whole
connection's validation verdict to failure, regardless of how many other
SCTs verify successfully. -/
theorem parse_error_fails_connection (evp : List Nat → List Nat → Nat → Bool)
    (logs : Option (List (List Nat × Nat))) (der : List Nat) (now : Int)
    (scts : List (List Nat))
    (h1 : ∃ s ∈ scts, parse_sct s (some der) = .err)
    (h2 : ∀ s ∈ scts, parse_sct s (some der) ≠ .oob) :
    ∃ out, validate_scts evp logs der now scts = some out ∧ out.ok = false := by
  obtain ⟨s0, hs0, herr⟩ := h1
  have hne : scts ≠ [] := by
    intro h
    rw [h] at hs0
    exact absurd hs0 (List.not_mem_nil s0)
  obtain ⟨acc, ht, hpf⟩ :=
    tally_loop_total evp logs der now scts ⟨false, 0, 0, 0, 0⟩ h2
  have hany : scts.any (fun s => !(parse_sct s (some der)).isOk) = true := by
    rw [List.any_eq_true]
    exact ⟨s0, hs0, by rw [herr]; rfl⟩
  have hpf' : acc.parse_failed = true := by
    rw [hpf, hany]
    simp
  refine ⟨⟨!acc.parse_failed
            && !(decide (0 < acc.failures) && decide (acc.successes = 0)),
          acc.successes, acc.failures, acc.unknowns, acc.verifications⟩, ?_, ?_⟩
  · rw [validate_scts, if_neg (by simp [List.isEmpty_iff, hne]), ht]
  · dsimp only
    rw [hpf']
    rfl

/-- Witness for the amended C3 statement at the concrete two-SCT input. -/
theorem parse_error_fails_connection_witness :
    (∃ s ∈ [badSct, minSct], parse_sct s (some [1]) = .err) ∧
    (∀ s ∈ [badSct, minSct], parse_sct s (some [1]) ≠ .oob) ∧
    (∃ out, validate_scts evpAcceptAll (some oneLog) [1] 5 [badSct, minSct]
              = some out ∧ out.ok = false) :=
  ⟨⟨badSct, by decide, by decide⟩, by decide,
   parse_error_fails_connection evpAcceptAll (some oneLog) [1] 5 [badSct, minSct]
     ⟨badSct, by decide, by decide⟩ (by decide)⟩

/-- C9: an SCT whose timestamp is in the future but whose signature verifies
against a registered log is tallied both as a verification failure (for the
timestamp) and as a verification success (for the signature), and because
there is at least one success the overall verdict is success — such an SCT
alone lets the connection pass. -/
theorem future_timestamp_verified_sct_passes
    (evp : List Nat → List Nat → Nat → Bool) (ls : List (List Nat × Nat))
    (der : List Nat) (now : Int) (s : List Nat) (flds : sct_fields_t) (key : Nat)
    (hpars : parse_sct s (some der) = .ok flds)
    (hfut : flds.time > now)
    (hfind : find_log_key ls flds.logid = some key)
    (hver : verify_signature evp flds key = true) :
    validate_scts evp (some ls) der now [s] = some ⟨true, 1, 1, 0, 1⟩ := by
  rw [validate_scts, if_neg (by simp)]
  simp only [tally_loop, hpars, tally_step, hfind, hver, if_pos hfut]
  simp

/-- Witness for C9 at a concrete future-timestamp SCT accepted by the
verification oracle. -/
theorem future_timestamp_verified_sct_passes_witness :
    parse_sct (sctWithTs 1) (some [1]) = .ok fldsTs1 ∧
    fldsTs1.time > 0 ∧
    find_log_key oneLog fldsTs1.logid = some 0 ∧
    verify_signature evpAcceptAll fldsTs1 0 = true ∧
    validate_scts evpAcceptAll (some oneLog) [1] 0 [sctWithTs 1]
      = some ⟨true, 1, 1, 0, 1⟩ :=
  ⟨by decide, by decide, by decide, by decide,
   future_timestamp_verified_sct_passes evpAcceptAll oneLog [1] 0 (sctWithTs 1)
     fldsTs1 0 (by decide) (by decide) (by decide) (by decide)⟩

theorem collate_loop_eq_filter (files : List (List Nat)) (now : Int)
    (hsize : ∀ f ∈ files, f.length ≤ MAX_SCTS_SIZE)
    (hp : ∀ f ∈ files, (parse_sct f none).isOk = true) :
    collate_loop now files = some (files.filter (servable now)) := by
  induction files with
  | nil => rfl
  | cons f rest ih =>
    have hs := hsize f (List.mem_cons_self f rest)
    have ihr := ih (fun x hx => hsize x (List.mem_cons_of_mem f hx))
                   (fun x hx => hp x (List.mem_cons_of_mem f hx))
    cases hc : parse_sct f none with
    | err =>
      have := hp f (List.mem_cons_self f rest)
      rw [hc] at this
      simp [ParseResult.isOk] at this
    | oob =>
      have := hp f (List.mem_cons_self f rest)
      rw [hc] at this
      simp [ParseResult.isOk] at this
    | ok flds =>
      rw [collate_loop, if_neg (by omega), hc]
      dsimp only
      by_cases hfut : flds.time > now
      · rw [if_pos hfut, List.filter_cons]
        have hserv : servable now f = false := by
          rw [servable, hc]
          simp
          omega
        rw [hserv]
        simp only [Bool.false_eq_true, if_false]
        exact ihr
      · rw [if_neg hfut, List.filter_cons]
        have hserv : servable now f = true := by
          rw [servable, hc]
          simp
          omega
        rw [hserv, ihr]
        simp

/-- C5 counterexample: a refresh pass whose certificate directory yields zero
servable SCTs (here: no `.sct` files at all) completes the collation step
without replacing the collated blob — `rv == APR_SUCCESS && scts_written`
guards the rename, so the previous blob and its modification time are left
untouched. -/
theorem collate_zero_scts_no_replace_cex :
    collate_scts [] 0 (some [9]) = ⟨true, [], false, some [9]⟩ := by
  decide

/-- C5 (amended): on every collation pass over readable, parseable `.sct`
files that yields at least one servable SCT, the collated blob is rebuilt
from the current files and replaced — independently of the previous blob, so
this happens even when no individual SCT is new or changed.  (With zero
servable SCTs the previous blob is left in place, see the counterexample.) -/
theorem collate_replaces_when_nonempty (files : List (List Nat)) (now : Int)
    (prev : Option (List Nat))
    (hsize : ∀ f ∈ files, f.length ≤ MAX_SCTS_SIZE)
    (hp : ∀ f ∈ files, (parse_sct f none).isOk = true)
    (hne : files.filter (servable now) ≠ []) :
    (collate_scts files now prev).replaced = true ∧
    (collate_scts files now prev).blob
      = some (write_framed (files.filter (servable now))) := by
  rw [collate_scts, collate_loop_eq_filter files now hsize hp]
  simp only
  rw [if_neg (by simp [List.isEmpty_iff, hne])]
  exact ⟨rfl, rfl⟩

/-- Witness for the amended C5 statement: one servable SCT, unchanged from
the previous pass, still replaces the blob. -/
theorem collate_replaces_when_nonempty_witness :
    (∀ f ∈ [minSct], f.length ≤ MAX_SCTS_SIZE) ∧
    (∀ f ∈ [minSct], (parse_sct f none).isOk = true) ∧
    ([minSct].filter (servable 0) ≠ []) ∧
    ((collate_scts [minSct] 0 (some [9])).replaced = true ∧
     (collate_scts [minSct] 0 (some [9])).blob
       = some (write_framed ([minSct].filter (servable 0)))) :=
  ⟨by decide, by decide, by decide,
   collate_replaces_when_nonempty [minSct] 0 (some [9])
     (by decide) (by decide) (by decide)⟩

/-- C6: when every `.sct` file of the directory reads and parses, collation
succeeds and writes exactly the files whose timestamp is not in the future
(`servable`), in directory order; if any servable file exists the collated
blob is exactly the framed encoding of those files. -/
theorem collate_filters_future_timestamps (files : List (List Nat)) (now : Int)
    (prev : Option (List Nat))
    (hsize : ∀ f ∈ files, f.length ≤ MAX_SCTS_SIZE)
    (hp : ∀ f ∈ files, (parse_sct f none).isOk = true) :
    (collate_scts files now prev).ok = true ∧
    (collate_scts files now prev).written = files.filter (servable now) ∧
    (files.filter (servable now) ≠ [] →
      (collate_scts files now prev).blob
        = some (write_framed (files.filter (servable now)))) := by
  rw [collate_scts, collate_loop_eq_filter files now hsize hp]
  simp only
  by_cases hne : files.filter (servable now) = []
  · rw [if_pos (by simp [List.isEmpty_iff, hne])]
    exact ⟨rfl, rfl, fun h => absurd hne h⟩
  · rw [if_neg (by simp [List.isEmpty_iff, hne])]
    exact ⟨rfl, rfl, fun _ => rfl⟩

/-- Witness for C6: a directory with one future-timestamp SCT and one valid
past-timestamp SCT collates to a blob containing only the valid one. -/
theorem collate_filters_future_timestamps_witness :
    (∀ f ∈ [sctWithTs 1, minSct], f.length ≤ MAX_SCTS_SIZE) ∧
    (∀ f ∈ [sctWithTs 1, minSct], (parse_sct f none).isOk = true) ∧
    ([sctWithTs 1, minSct].filter (servable 0) = [minSct]) ∧
    ((collate_scts [sctWithTs 1, minSct] 0 none).ok = true ∧
     (collate_scts [sctWithTs 1, minSct] 0 none).written
       = [sctWithTs 1, minSct].filter (servable 0) ∧
     ([sctWithTs 1, minSct].filter (servable 0) ≠ [] →
       (collate_scts [sctWithTs 1, minSct] 0 none).blob
         = some (write_framed ([sctWithTs 1, minSct].filter (servable 0))))) :=
  ⟨by decide, by decide, by decide,
   collate_filters_future_timestamps [sctWithTs 1, minSct] 0 none
     (by decide) (by decide)⟩

/-- C10: the collated blob's leading 16-bit header is the sum of
`entry size + 2` over the written SCTs reduced modulo `2^16`, and the body
that follows it has the full (unreduced) length — so whenever that total
reaches `2^16` the header wraps and no longer equals the number of bytes
that follow it. -/
theorem collate_header_wraps (files : List (List Nat)) (now : Int)
    (prev : Option (List Nat))
    (hsize : ∀ f ∈ files, f.length ≤ MAX_SCTS_SIZE)
    (hp : ∀ f ∈ files, (parse_sct f none).isOk = true)
    (hne : files.filter (servable now) ≠ []) :
    ∃ blob, (collate_scts files now prev).blob = some blob ∧
      readBE (blob.take 2)
        = ((files.filter (servable now)).map (fun f => f.length + 2)).sum % 2 ^ 16 ∧
      blob.length
        = 2 + ((files.filter (servable now)).map (fun f => f.length + 2)).sum ∧
      (2 ^ 16 ≤ ((files.filter (servable now)).map (fun f => f.length + 2)).sum →
        readBE (blob.take 2) ≠ blob.length - 2) := by
  have hblob : (collate_scts files now prev).blob
      = some (write_framed (files.filter (servable now))) := by
    rw [collate_scts, collate_loop_eq_filter files now hsize hp]
    simp only
    rw [if_neg (by simp [List.isEmpty_iff, hne])]
  refine ⟨write_framed (files.filter (servable now)), hblob, ?_, ?_, ?_⟩
  · rw [write_framed, List.take_left' (be16_length _)]
    exact readBE_beBytes 2 _ (by rw [two_pow_16] at *; norm_num; omega)
  · rw [write_framed, List.length_append, be16_length, flatten_frames_length]
  · intro htot
    rw [write_framed, List.take_left' (be16_length _), List.length_append,
        be16_length, flatten_frames_length,
        readBE_be16 _ (Nat.mod_lt _ (by norm_num))]
    have hlt : ((files.filter (servable now)).map (fun f => f.length + 2)).sum % 2 ^ 16
        < 2 ^ 16 := Nat.mod_lt _ (by norm_num)
    omega

/-- Witness for C10: 1338 copies of a 47-byte SCT give a total framed size of
65562, and the 16-bit header wraps to 26, no longer matching the 65562 body
bytes that follow. -/
theorem collate_header_wraps_witness :
    (∀ f ∈ List.replicate 1338 minSct, f.length ≤ MAX_SCTS_SIZE) ∧
    (∀ f ∈ List.replicate 1338 minSct, (parse_sct f none).isOk = true) ∧
    ((List.replicate 1338 minSct).filter (servable 0) ≠ []) ∧
    (∃ blob, (collate_scts (List.replicate 1338 minSct) 0 none).blob = some blob ∧
      readBE (blob.take 2)
        = (((List.replicate 1338 minSct).filter (servable 0)).map
            (fun f => f.length + 2)).sum % 2 ^ 16 ∧
      blob.length
        = 2 + (((List.replicate 1338 minSct).filter (servable 0)).map
                (fun f => f.length + 2)).sum ∧
      (2 ^ 16 ≤ (((List.replicate 1338 minSct).filter (servable 0)).map
                  (fun f => f.length + 2)).sum →
        readBE (blob.take 2) ≠ blob.length - 2)) :=
  ⟨fun f hf => by rw [List.eq_of_mem_replicate hf]; decide,
   fun f hf => by rw [List.eq_of_mem_replicate hf]; decide,
   by rw [List.filter_replicate]; decide,
   collate_header_wraps (List.replicate 1338 minSct) 0 none
     (fun f hf => by rw [List.eq_of_mem_replicate hf]; decide)
     (fun f hf => by rw [List.eq_of_mem_replicate hf]; decide)
     (by rw [List.filter_replicate]; decide)⟩

/-- C7 counterexample: with two certificate directories where the first
fails its refresh (e.g. its external fetch fails) and the second would
succeed, the pass returns at the first failure: directory `1` is never
processed, so a failure local to one certificate does prevent the refresh of
an unrelated one in the same pass. -/
theorem refresh_abort_cex :
    refresh_all_scts (fun d => d != 0) [0, 1] [] = (false, [0]) ∧
    1 ∉ (refresh_all_scts (fun d => d != 0) [0, 1] []).2 := by
  decide

theorem refresh_all_scts_abort (outcome : Nat → Bool) (pre : List Nat)
    (d : Nat) (post : List Nat) (processed : List Nat)
    (hnodup : pre.Nodup)
    (hdis : ∀ x ∈ pre, x ∉ processed)
    (hpre : ∀ x ∈ pre, outcome x = true)
    (hdp : d ∉ processed) (hdpre : d ∉ pre)
    (hd : outcome d = false) :
    refresh_all_scts outcome (pre ++ d :: post) processed
      = (false, processed ++ pre ++ [d]) := by
  induction pre generalizing processed with
  | nil =>
    simp only [List.nil_append, List.append_nil]
    rw [refresh_all_scts, if_neg hdp, hd]
    simp
  | cons x pre ih =>
    have hxp : x ∉ processed := hdis x (List.mem_cons_self x pre)
    have hox : outcome x = true := hpre x (List.mem_cons_self x pre)
    rw [List.cons_append, refresh_all_scts, if_neg hxp, hox, if_pos rfl]
    rw [ih (processed ++ [x]) (List.nodup_cons.mp hnodup).2
          (fun y hy => by
            simp only [List.mem_append, List.mem_singleton]
            rintro (hc | hc)
            · exact hdis y (List.mem_cons_of_mem x hy) hc
            · exact (List.nodup_cons.mp hnodup).1 (hc ▸ hy))
          (fun y hy => hpre y (List.mem_cons_of_mem x hy))
          (by
            simp only [List.mem_append, List.mem_singleton]
            rintro (hc | hc)
            · exact hdp hc
            · exact hdpre (hc ▸ List.mem_cons_self x pre))
          (fun hc => hdpre (List.mem_cons_of_mem x hc))]
    simp

/-- C7 (amended): in a refresh pass over several certificate directories, the
first failing certificate aborts the entire pass (`return rv`): the distinct
directories positioned before it are refreshed, the failing one is attempted,
and no directory after it is processed in that pass — contrary to the claim,
a failure local to one certificate does prevent the refresh of the
unrelated directories that follow it (they are retried only on the next
cycle). -/
theorem refresh_abort_on_failure (outcome : Nat → Bool) (pre : List Nat)
    (d : Nat) (post : List Nat)
    (hnodup : pre.Nodup) (hpre : ∀ x ∈ pre, outcome x = true)
    (hdpre : d ∉ pre) (hd : outcome d = false) :
    refresh_all_scts outcome (pre ++ d :: post) [] = (false, pre ++ [d]) ∧
    ∀ x ∈ post, x ∉ pre ++ [d] →
      x ∉ (refresh_all_scts outcome (pre ++ d :: post) []).2 := by
  have h := refresh_all_scts_abort outcome pre d post []
    hnodup (by simp) hpre (by simp) hdpre hd
  rw [List.nil_append] at h
  refine ⟨h, fun x _ hnx => ?_⟩
  rw [h]
  exact hnx

/-- Witness for the amended C7 statement: directory 5 succeeds, directory 7
fails, directory 9 is skipped for the rest of the pass. -/
theorem refresh_abort_on_failure_witness :
    ([5] : List Nat).Nodup ∧
    (∀ x ∈ ([5] : List Nat), (fun y => y != 7) x = true) ∧
    ((7 : Nat) ∉ ([5] : List Nat)) ∧
    ((fun y => y != 7) 7 = false) ∧
    (refresh_all_scts (fun y => y != 7) ([5] ++ 7 :: [9]) [] = (false, [5] ++ [7]) ∧
     ∀ x ∈ ([9] : List Nat), x ∉ ([5] : List Nat) ++ [7] →
       x ∉ (refresh_all_scts (fun y => y != 7) ([5] ++ 7 :: [9]) []).2) :=
  ⟨by decide, by decide, by decide, by decide,
   refresh_abort_on_failure (fun y => y != 7) [5] 7 [9]
     (by decide) (by decide) (by decide) (by decide)⟩

/-- C8: two consecutive validations with byte-identical leaf certificate
(fingerprint) and byte-identical raw SCT data on the channels share the cache
key; whatever the first call did (miss-validate-insert or hit), the second
call is a cache hit that performs zero signature verifications, reports the
same verdict the first call reported, and leaves the cache unchanged (the
entry is created once and read-only thereafter). -/
theorem post_handshake_cache_hit (evp : List Nat → List Nat → Nat → Bool)
    (logs : Option (List (List Nat × Nat))) (der : List Nat) (now : Int)
    (pa : Nat) (fp : List Nat) (cache : List (List Nat × Bool))
    (conncfg : ct_conn_config) (r1 : PostHandshakeResult)
    (cache1 : List (List Nat × Bool))
    (hpa : pa ≠ PROXY_OBLIVIOUS)
    (hch : ¬(conncfg.cert_sct_list = none ∧ conncfg.serverhello_sct_list = none
             ∧ conncfg.ocsp_sct_list = none))
    (h1 : ssl_ct_ssl_proxy_post_handshake evp logs der now pa fp cache conncfg
            = some (r1, cache1)) :
    ∃ r2, ssl_ct_ssl_proxy_post_handshake evp logs der now pa fp cache1 conncfg
            = some (r2, cache1) ∧
      r2.hit = true ∧ r2.verifications = 0 ∧ r2.verdict = r1.verdict := by
  rw [ssl_ct_ssl_proxy_post_handshake, if_neg hpa, if_neg hch] at h1
  rw [ssl_ct_ssl_proxy_post_handshake, if_neg hpa, if_neg hch]
  cases hg : cache_get cache (gen_key fp conncfg) with
  | some v =>
    rw [hg] at h1
    simp only [Option.some.injEq, Prod.mk.injEq] at h1
    obtain ⟨hr1, hc1⟩ := h1
    subst hc1
    rw [hg]
    exact ⟨_, rfl, rfl, rfl, by rw [← hr1]⟩
  | none =>
    rw [hg] at h1
    cases hv : validate_server_data evp logs der now conncfg with
    | none =>
      rw [hv] at h1
      cases h1
    | some out =>
      rw [hv] at h1
      simp only [Option.some.injEq, Prod.mk.injEq] at h1
      obtain ⟨hr1, hc1⟩ := h1
      subst hc1
      have hg2 : cache_get ((gen_key fp conncfg, out.ok) :: cache)
          (gen_key fp conncfg) = some out.ok := by
        rw [cache_get, if_pos rfl]
      rw [hg2]
      exact ⟨_, rfl, rfl, rfl, by rw [← hr1]⟩

/-- Witness for C8: concrete first connection (cache miss, three successful
verifications), then the identical second connection hits the cache. -/
theorem post_handshake_cache_hit_witness :
    ((2 : Nat) ≠ PROXY_OBLIVIOUS) ∧
    (¬(threeChannelConn.cert_sct_list = none
       ∧ threeChannelConn.serverhello_sct_list = none
       ∧ threeChannelConn.ocsp_sct_list = none)) ∧
    (ssl_ct_ssl_proxy_post_handshake evpAcceptAll (some oneLog) [1] 5 2 [3, 3]
       [] threeChannelConn = some (⟨HOOK_OK, true, false, 3⟩, c8Cache1)) ∧
    (∃ r2, ssl_ct_ssl_proxy_post_handshake evpAcceptAll (some oneLog) [1] 5 2
             [3, 3] c8Cache1 threeChannelConn = some (r2, c8Cache1) ∧
       r2.hit = true ∧ r2.verifications = 0 ∧
       r2.verdict = PostHandshakeResult.verdict ⟨HOOK_OK, true, false, 3⟩) :=
  ⟨by decide, by decide, by decide,
   post_handshake_cache_hit evpAcceptAll (some oneLog) [1] 5 2 [3, 3] []
     threeChannelConn ⟨HOOK_OK, true, false, 3⟩ c8Cache1
     (by decide) (by decide) (by decide)⟩

end ModSslCt
